import Mathlib

/-!
Verification of the hybrid phishing-detection engine
(`features.py` + `predictor.py`) against its specification.

Shallow embedding conventions:
* Python strings are `List Char`; `str.lower` is `List.map Char.toLower`
  (exact on the ASCII range this engine works with).
* Python floats are idealised as real numbers `ℝ`; values the code computes
  exactly (thresholds, ratios, counts) are kept in `ℚ`/`ℕ` so they stay
  decidable.  `np.log1p x = Real.log (1 + x)` and `math.log2 = Real.logb 2`.
* The WHOIS domain-age lookup in `get_domain_age_days` (network + `utcnow`)
  is modelled as an oracle `age : List Char → ℝ` giving the result of the
  whole `try` block (the code maps every failure to `0.0`); the oracle is a
  parameter because the lookup's outcome is not a function of the input URL.
* The trained scikit-learn ensemble is opaque data: `MLModel` carries the
  aggregator's `predict_proba` positive-class output and the per-member
  probability functions, each returning `Option ℝ` where `none` models the
  call raising an exception.
* Fallible Python code is embedded with `Option`/`Except`: `detect` returns
  `none` exactly when an uncaught exception would propagate to the caller.
* Display-level rounding (`round(x, 4)` on the returned dict) is a float
  formatting concern and is not modelled; `ScoreResult` carries the values
  the control flow actually uses.
-/

/-! ### Python list/string primitives -/

/-- Python `str.strip()`: remove leading and trailing whitespace. -/
def py_strip (l : List Char) : List Char :=
  ((l.dropWhile Char.isWhitespace).reverse.dropWhile Char.isWhitespace).reverse

/-- Python `str.lower()`. -/
def lower (l : List Char) : List Char := l.map Char.toLower

/-- Greedy left-to-right non-overlapping substring counting, fuel-indexed so
that it is structurally recursive (fuel `≥` text length is enough when the
pattern is nonempty). -/
def py_count_aux (t : List Char) : ℕ → List Char → ℕ
  | 0, _ => 0
  | _ + 1, [] => 0
  | fuel + 1, c :: l =>
    if t.isPrefixOf (c :: l) then 1 + py_count_aux t fuel (List.drop t.length (c :: l))
    else py_count_aux t fuel l

/-- Python `s.count(t)`: greedy non-overlapping occurrence count
(`"".count` conventions included for totality). -/
def py_count (t l : List Char) : ℕ :=
  if t.isEmpty then l.length + 1 else py_count_aux t l.length l

/-! ### features.py: constants -/

def TRUSTED_DOMAINS : List (List Char) :=
  ["openai.com".toList, "github.com".toList, "python.org".toList,
   "wikipedia.org".toList, "example.com".toList]

def SUSPICIOUS_TOKENS : List (List Char) :=
  ["login".toList, "verify".toList, "update".toList, "secure".toList,
   "account".toList, "password".toList, "bank".toList, "prize".toList,
   "reward".toList, "free".toList, "click".toList, "urgent".toList,
   "confirm".toList, "reset".toList, "winner".toList, "claim".toList]

def FEATURE_NAMES : List String :=
  ["url_length", "hostname_length", "path_length", "query_length",
   "num_digits", "num_hyphens", "num_at_symbols", "num_question_marks",
   "num_equals", "num_percent", "num_underscores", "num_dots",
   "has_ip_address", "num_suspicious_tokens", "is_https",
   "num_non_ascii", "non_ascii_ratio", "num_zero_width_chars",
   "zero_width_ratio", "has_punycode", "num_subdomains",
   "domain_entropy", "tld_risk_score", "domain_age_days"]

/-- The characters of `ZERO_WIDTH_RE` (U+200B, U+200C, U+200D, U+FEFF). -/
def ZERO_WIDTH_CHARS : List Char := ['​', '‌', '‍', '﻿']

/-- `len(ZERO_WIDTH_RE.findall(s))`. -/
def zw_count (l : List Char) : ℕ := l.countP (fun c => c ∈ ZERO_WIDTH_CHARS)

/-- `len(NON_ASCII_RE.findall(s))` with `NON_ASCII_RE = [^\x00-\x7F]`. -/
def non_ascii_count (l : List Char) : ℕ := l.countP (fun c => 127 < c.toNat)

/-- Python's substring operator `t in l`. -/
def py_in (t l : List Char) : Bool := decide (t <:+: l)

/-- `PUNYCODE_RE.search(s)` with `PUNYCODE_RE = "xn--"`, case-insensitive. -/
def puny_in (l : List Char) : Bool := py_in "xn--".toList (lower l)

/-- `IP_RE.match(s)` for `^\d{1,3}(\.\d{1,3}){3}$` (equivalently
features.py's `^(?:[0-9]{1,3}\.){3}[0-9]{1,3}$`). -/
def ip_match (l : List Char) : Bool :=
  let parts := l.splitOn '.'
  decide (parts.length = 4) &&
    parts.all (fun p => decide (1 ≤ p.length) && decide (p.length ≤ 3) &&
      p.all (fun c => c.isDigit))

def TLD_RISK_SCORES : List (List Char × ℚ) :=
  [("com".toList, 0.1), ("org".toList, 0.05), ("net".toList, 0.1),
   ("xyz".toList, 0.9), ("top".toList, 0.8), ("club".toList, 0.7),
   ("info".toList, 0.5), ("online".toList, 0.6)]

/-! ### features.py: utility functions -/

/-- `shannon_entropy`: `-sum(p * log2 p for p in probs)` over `set(s)`. -/
noncomputable def shannon_entropy (s : List Char) : ℝ :=
  if s = [] then 0
  else -(((s.dedup).map (fun c =>
    ((s.count c : ℝ) / (s.length : ℝ)) *
      Real.logb 2 ((s.count c : ℝ) / (s.length : ℝ)))).sum)

/-- `count_subdomains`: `max(len(hostname.split('.')) - 2, 0)`. -/
def count_subdomains (hostname : List Char) : ℕ :=
  if hostname = [] then 0 else max ((hostname.splitOn '.').length - 2) 0

/-- `get_tld_risk`: risk of the last dot-separated component, defaulting
unknown TLDs to `0.2`. -/
def get_tld_risk (hostname : List Char) : ℚ :=
  if hostname = [] ∨ '.' ∉ hostname then 0
  else ((TLD_RISK_SCORES.lookup
    (((hostname.splitOn '.').getLast?.getD []).map Char.toLower)).getD 0.2)

/-- `get_domain_age_days`: the registrable domain (last two labels) is looked
up through the external WHOIS oracle `age`; empty hostname short-circuits to
`0`.  The oracle stands for the whole `try` block (whois call, creation-date
normalisation, `utcnow` difference, every failure mapped to `0.0`). -/
def get_domain_age_days (hostname : List Char) (age : List Char → ℝ) : ℝ :=
  if hostname = [] then 0
  else
    age (let parts := hostname.splitOn '.'
         if 1 < parts.length then
           List.intercalate ['.'] (parts.drop (parts.length - 2))
         else hostname)

/-! ### urllib.parse.urlparse, modelled for the URL shapes this engine uses -/

structure UrlParts where
  hostname : List Char
  path : List Char
  query : List Char
deriving DecidableEq, Repr

/-- Valid RFC-3986 scheme: a letter followed by letters/digits/`+`/`-`/`.`. -/
def valid_scheme (s : List Char) : Bool :=
  match s with
  | [] => false
  | c :: rest =>
    c.isAlpha && rest.all (fun d => d.isAlpha || d.isDigit ||
      decide (d = '+') || decide (d = '-') || decide (d = '.'))

/-- Split `path?query`, with the fragment (`#…`) removed first, as
`urlparse` does. -/
def split_path_query (s : List Char) : List Char × List Char :=
  let beforeFrag := s.takeWhile (fun c => decide (c ≠ '#'))
  let p := beforeFrag.takeWhile (fun c => decide (c ≠ '?'))
  (p, beforeFrag.drop (p.length + 1))

/-- `netloc → hostname`: drop userinfo (after the last `@`), drop the port,
lowercase. -/
def host_of_netloc (netloc : List Char) : List Char :=
  let afterUser := ((netloc.reverse.takeWhile (fun c => decide (c ≠ '@'))).reverse)
  lower (afterUser.takeWhile (fun c => decide (c ≠ ':')))

/-- Model of Python `urllib.parse.urlparse` restricted to the fields the
engine reads (`hostname`, `path`, `query`): a netloc exists only after
`scheme://` (or a leading `//`); otherwise everything is path/query and
`hostname` is empty (Python's `None`, coerced to `""` by the callers). -/
def py_urlparse (url : List Char) : UrlParts :=
  let pre := url.takeWhile (fun c => decide (c ≠ ':'))
  let hasScheme := decide (pre.length < url.length) && valid_scheme pre
  let rest := if hasScheme then url.drop (pre.length + 1) else url
  if rest.take 2 = ['/', '/'] then
    let afterSlashes := rest.drop 2
    let netloc := afterSlashes.takeWhile
      (fun c => decide (c ≠ '/') && decide (c ≠ '?') && decide (c ≠ '#'))
    let pq := split_path_query (afterSlashes.drop netloc.length)
    { hostname := host_of_netloc netloc, path := pq.1, query := pq.2 }
  else
    let pq := split_path_query rest
    { hostname := [], path := pq.1, query := pq.2 }

/-! ### features.py: extract_features_from_url -/

/-- `extract_features_from_url(url)`: the 24 features, in the order of
`FEATURE_NAMES`.  Total by construction (Python's `try` around `urlparse`
never fires in the model).  `age` is the WHOIS oracle. -/
noncomputable def extract_features_from_url
    (url0 : List Char) (age : List Char → ℝ) : List ℝ :=
  let url := py_strip url0
  let parts := py_urlparse url
  let hostname := parts.hostname
  let lurl := lower url
  let na := non_ascii_count url
  let zw := zw_count url
  [ (url.length : ℝ),
    (hostname.length : ℝ),
    (parts.path.length : ℝ),
    (parts.query.length : ℝ),
    (url.countP (fun c => c.isDigit) : ℝ),
    (url.count '-' : ℝ),
    (url.count '@' : ℝ),
    (url.count '?' : ℝ),
    (url.count '=' : ℝ),
    (url.count '%' : ℝ),
    (url.count '_' : ℝ),
    (url.count '.' : ℝ),
    (if ip_match hostname then 1 else 0),
    ((SUSPICIOUS_TOKENS.filter (fun t => py_in t lurl)).length : ℝ),
    (if "https://".toList.isPrefixOf lurl then 1 else 0),
    (na : ℝ),
    (na : ℝ) / ((max url.length 1 : ℕ) : ℝ),
    (zw : ℝ),
    (zw : ℝ) / ((max url.length 1 : ℕ) : ℝ),
    (if puny_in hostname then 1 else 0),
    (count_subdomains hostname : ℝ),
    shannon_entropy hostname,
    ((get_tld_risk hostname : ℚ) : ℝ),
    get_domain_age_days hostname age ]

/-! ### predictor.py: constants and model state -/

def DEFAULT_ML_WEIGHT : ℝ := 0.6

def DEFAULT_THRESHOLD : ℚ := 0.55

/-- The opaque trained ensemble: `proba` is the aggregator's
`predict_proba(...)[0, 1]` (`none` = the call raises), `named_estimators`
the per-member equivalents. -/
structure MLModel where
  proba : List ℝ → Option ℝ
  named_estimators : List (String × (List ℝ → Option ℝ))

/-- `MLPredictor.predict_proba`: the aggregator's fault propagates (no
`try` around it in the source); each member's fault is caught and that
member contributes `0.0` while remaining listed. -/
noncomputable def predict_proba (m : MLModel) (feats : List ℝ) :
    Option (ℝ × List (String × ℝ)) :=
  match m.proba feats with
  | none => none
  | some avg =>
    some (avg, m.named_estimators.map (fun nf => (nf.1, ((nf.2) feats).getD 0)))

/-- Python values a caller can pass as `threshold`. -/
inductive PyVal where
  | pnone
  | pnum (q : ℚ)
  | pstr (s : List Char)
  | pdict (entries : List (String × PyVal))

def digits_to_nat (l : List Char) : ℕ :=
  l.foldl (fun acc c => 10 * acc + (c.toNat - '0'.toNat)) 0

/-- Model of Python `float(str)`: optional sign, decimal digits with an
optional fractional part (exponent/inf/nan forms omitted — they only make
more strings convertible). -/
def parse_float (s : List Char) : Option ℚ :=
  let t := py_strip s
  let sgnRest : ℚ × List Char :=
    match t with
    | '+' :: r => (1, r)
    | '-' :: r => (-1, r)
    | r => (1, r)
  match sgnRest.2.splitOn '.' with
  | [ip] =>
    if ip ≠ [] ∧ ip.all Char.isDigit then some (sgnRest.1 * digits_to_nat ip)
    else none
  | [ip, fp] =>
    if ip ++ fp ≠ [] ∧ ip.all Char.isDigit ∧ fp.all Char.isDigit then
      some (sgnRest.1 * ((digits_to_nat ip : ℚ) + (digits_to_nat fp : ℚ) / (10 ^ fp.length)))
    else none
  | _ => none

/-- Python `float(v)`: `none` models `TypeError`/`ValueError`. -/
def py_float (v : PyVal) : Option ℚ :=
  match v with
  | .pnum q => some q
  | .pstr s => parse_float s
  | _ => none

/-- Lines 142–147 of `detect`: a dict is unwrapped through its
`"threshold"` key (with `DEFAULT_THRESHOLD` as `.get` default), then
`float(...)` with the bare `except` falling back to `DEFAULT_THRESHOLD`. -/
def threshold_use (threshold : PyVal) : ℚ :=
  let t := match threshold with
    | .pdict es => (es.lookup "threshold").getD (.pnum DEFAULT_THRESHOLD)
    | v => v
  (py_float t).getD DEFAULT_THRESHOLD

/-! ### predictor.py: heuristic scorer -/

/-- Machine-readable stand-ins for the reason strings the code builds
(the interpolated counts are carried as payloads). -/
inductive Reason where
  | trustedDomain
  | suspiciousTerms (n : ℕ)
  | unicodeObfuscation
  | ipInDomain
  | subdomainDepth (d : ℕ)
  | highEntropy
  | containsAt
  | manySpecial
  | longUrl
  | mlProb (p : ℝ)

/-- `token_counts = [text.lower().count(t) for t in SUSPICIOUS_TOKENS if t in text.lower()]`
is nonempty. -/
def tok_trigger (text : List Char) : Bool :=
  decide ((SUSPICIOUS_TOKENS.filter (fun t => py_in t (lower text))) ≠ [])

/-- `sum(token_counts)`. -/
def sum_tok (text : List Char) : ℕ :=
  ((SUSPICIOUS_TOKENS.filter (fun t => py_in t (lower text))).map
    (fun t => py_count t (lower text))).sum

/-- `min(0.95, 0.2 + 0.1*np.log1p(sum(token_counts)))`. -/
noncomputable def tok_val (text : List Char) : ℝ :=
  min 0.95 (0.2 + 0.1 * Real.log (1 + (sum_tok text : ℝ)))

/-- `non_ascii > 0 or zero_width > 0 or punycode` (punycode searched in the
domain, the character classes in the text). -/
def obf_trigger (text domain : List Char) : Bool :=
  decide (0 < non_ascii_count text) || decide (0 < zw_count text) || puny_in domain

/-- `depth = domain.count('.'); depth > 2`. -/
def depth_trigger (domain : List Char) : Bool := decide (2 < domain.count '.')

/-- `path_entropy = len(set(text)) / (len(text)+1) > 0.65` (exact rational
comparison; the float computation agrees on all inputs of interest). -/
def ent_trigger (text : List Char) : Bool :=
  decide ((0.65 : ℚ) < (text.dedup.length : ℚ) / ((text.length : ℚ) + 1))

/-- `"@" in text`. -/
def at_trigger (text : List Char) : Bool := decide ('@' ∈ text)

/-- `text.count('-') > 3 or text.count('_') > 3`. -/
def spec_trigger (text : List Char) : Bool :=
  decide (3 < text.count '-') || decide (3 < text.count '_')

/-- `len(text) > 75`. -/
def len_trigger (text : List Char) : Bool := decide (75 < text.length)

/-- One `if cond: heur_score = max(heur_score, v); reasons.append(w)` step. -/
structure Rule where
  trig : Bool
  val : ℝ
  why : Reason

/-- Sequential evaluation of the rules, in source order: each triggered rule
raises the running maximum and appends its reason. -/
noncomputable def applyRules : List Rule → ℝ × List Reason → ℝ × List Reason
  | [], acc => acc
  | r :: rs, acc =>
    applyRules rs (if r.trig then (max acc.1 r.val, acc.2 ++ [r.why]) else acc)

/-- The eight scored rules of `_heuristic_score`, in source order. -/
noncomputable def rule_list (text domain : List Char) : List Rule :=
  [ ⟨tok_trigger text, tok_val text, .suspiciousTerms (sum_tok text)⟩,
    ⟨obf_trigger text domain, 0.6, .unicodeObfuscation⟩,
    ⟨ip_match domain, 0.8, .ipInDomain⟩,
    ⟨depth_trigger domain, 0.5, .subdomainDepth (domain.count '.')⟩,
    ⟨ent_trigger text, 0.55, .highEntropy⟩,
    ⟨at_trigger text, 0.75, .containsAt⟩,
    ⟨spec_trigger text, 0.5, .manySpecial⟩,
    ⟨len_trigger text, 0.55, .longUrl⟩ ]

/-- `PhishingDetector._heuristic_score(text, domain)`:
`(min(1.0, heur_score), reasons, trusted_found)`. -/
noncomputable def heuristic_score (text domain : List Char)
    (trusted_domains : List (List Char)) : ℝ × List Reason × Bool :=
  let trusted := trusted_domains.any (fun td => !td.isEmpty && td.isSuffixOf domain)
  let res := applyRules (rule_list text domain)
    (0, if trusted then [Reason.trustedDomain] else [])
  (min 1 res.1, res.2, trusted)

/-! ### predictor.py: combiner, verdict, detect -/

/-- `ml_weight = self.ml_weight; if len(text) > 100 or heur_score > 0.7: ml_weight = 0.4`. -/
noncomputable def effective_weight (ml_weight : ℝ) (text_len : ℕ) (heur : ℝ) : ℝ :=
  if 100 < text_len ∨ (0.7 : ℝ) < heur then 0.4 else ml_weight

/-- `final_score = ml_prob*w + heur*(1-w); if trusted: final_score *= 0.3`. -/
noncomputable def combine_score (ml_prob heur w : ℝ) (trusted : Bool) : ℝ :=
  if trusted then (ml_prob * w + heur * (1 - w)) * 0.3
  else ml_prob * w + heur * (1 - w)

/-- `"phishing" if s >= thr else "suspicious" if s >= thr*0.6 else "legitimate"`. -/
noncomputable def verdict_of (s : ℝ) (thr : ℚ) : String :=
  if (thr : ℝ) ≤ s then "phishing"
  else if (thr : ℝ) * 0.6 ≤ s then "suspicious"
  else "legitimate"

/-- `re.match(r"^(https?:\/\/|www\.)", text) or "." in text`. -/
def is_url_input (text : List Char) : Bool :=
  "http://".toList.isPrefixOf text || "https://".toList.isPrefixOf text ||
    "www.".toList.isPrefixOf text || text.contains '.'

/-- The feature vector `detect` hands to the ensemble: the stripped text if
it looks like a URL, else the placeholder `"textinput.local"`. -/
noncomputable def feats_for (input_text : List Char) (age : List Char → ℝ) : List ℝ :=
  let text := py_strip input_text
  extract_features_from_url
    (if is_url_input text then text else "textinput.local".toList) age

/-- The dict `detect` returns (unrounded values, see the header note). -/
structure ScoreResult where
  input : List Char
  domain : List Char
  type : String
  ml_probability : ℝ
  heuristic_score : ℝ
  final_score : ℝ
  verdict : String
  threshold : ℚ
  trusted : Bool
  reasons : List Reason
  timestamp : String
  per_model : List (String × ℝ)

/-- `PhishingDetector.detect(input_text, threshold)`.  `none` models an
uncaught exception reaching the caller (which happens exactly when the
ensemble aggregator's `predict_proba` raises).  `now` is `datetime.utcnow`
formatted — only the timestamp field sees it. -/
noncomputable def detect (m : MLModel) (ml_weight : ℝ)
    (trusted_domains : List (List Char)) (input_text : List Char)
    (threshold : PyVal) (age : List Char → ℝ) (now : String) :
    Option ScoreResult :=
  let thr := threshold_use threshold
  let text := py_strip input_text
  let is_url := is_url_input text
  let feats := feats_for input_text age
  let domain := (py_urlparse (if is_url then text else [])).hostname
  match predict_proba m feats with
  | none => none
  | some mp =>
    let hs := heuristic_score text domain trusted_domains
    let w := effective_weight ml_weight text.length hs.1
    let final := combine_score mp.1 hs.1 w hs.2.2
    some
      { input := text
        domain := if is_url then domain
                  else if domain.isEmpty then "(file content)".toList else domain
        type := if is_url then "url" else "file"
        ml_probability := mp.1
        heuristic_score := hs.1
        final_score := final
        verdict := verdict_of final thr
        threshold := thr
        trusted := hs.2.2
        reasons := hs.2.1 ++ [Reason.mlProb mp.1]
        timestamp := now
        per_model := mp.2 }

/-! ### predictor.py: train_from_csv -/

/-- `train_from_csv(csv_path, target_col)` as a state transformer on the
live predictor's model.  `csv_exists` models `os.path.exists`; `columns`
the CSV header; `fitted` the ensemble a successful fit would produce.
`Except.error` models the uncaught `KeyError` from `df[FEATURE_NAMES]`
when a feature column is missing (the code validates only the target
column explicitly). -/
def train_from_csv (csv_exists : Bool) (columns : List String)
    (target_col : String) (fitted current : MLModel) :
    Except String Bool × MLModel :=
  if !csv_exists then (Except.ok false, current)
  else if target_col ∉ columns then (Except.ok false, current)
  else if ¬ (∀ n ∈ FEATURE_NAMES, n ∈ columns) then
    (Except.error "KeyError", current)
  else (Except.ok true, fitted)

/-! ### Concrete model instances used by witnesses and counterexamples -/

/-- A well-behaved ensemble: the aggregator always answers `0.5`, no
named members. -/
def constM : MLModel := ⟨fun _ => some 0.5, []⟩

/-- An ensemble whose aggregator raises on every input while a member
still works: isolates the missing `try` around the aggregator call. -/
def badM : MLModel := ⟨fun _ => none, [("lr", fun _ => some 0.9)]⟩

/-- The result of `detect constM 0.6 TRUSTED_DOMAINS ['x'] .pnone (fun _ => 0) "t"`,
spelled out (used by witnesses). -/
noncomputable def rW : ScoreResult :=
  { input := ['x']
    domain := "(file content)".toList
    type := "file"
    ml_probability := 0.5
    heuristic_score := 0
    final_score := 0.3
    verdict := "legitimate"
    threshold := DEFAULT_THRESHOLD
    trusted := false
    reasons := [Reason.mlProb 0.5]
    timestamp := "t"
    per_model := [] }

/-! ### Generic lemmas about the ceiling-accumulation evaluator -/

theorem applyRules_fst_ge_init (rs : List Rule) (acc : ℝ × List Reason) :
    acc.1 ≤ (applyRules rs acc).1 := by
  induction rs generalizing acc with
  | nil => simp [applyRules]
  | cons r rs ih =>
    simp only [applyRules]
    refine le_trans ?_ (ih _)
    by_cases h : r.trig
    · simp only [h, if_true]
      exact le_max_left _ _
    · simp [h]

theorem applyRules_fst_ge_of_mem {rs : List Rule} {r : Rule} (hmem : r ∈ rs)
    (htrig : r.trig = true) (acc : ℝ × List Reason) :
    r.val ≤ (applyRules rs acc).1 := by
  induction rs generalizing acc with
  | nil => cases hmem
  | cons r0 rs ih =>
    simp only [applyRules]
    rcases List.mem_cons.mp hmem with h | h
    · subst h
      simp only [htrig, if_true]
      have h2 := applyRules_fst_ge_init rs (max acc.1 r.val, acc.2 ++ [r.why])
      exact le_trans (le_max_right _ _) h2
    · exact ih h _

theorem applyRules_fst_le {rs : List Rule} {c : ℝ}
    (hrules : ∀ r ∈ rs, r.trig = true → r.val ≤ c)
    {acc : ℝ × List Reason} (hacc : acc.1 ≤ c) :
    (applyRules rs acc).1 ≤ c := by
  induction rs generalizing acc with
  | nil => simpa [applyRules] using hacc
  | cons r rs ih =>
    simp only [applyRules]
    refine ih (fun r' h' ht' => hrules r' (List.mem_cons_of_mem _ h') ht') ?_
    by_cases h : r.trig
    · simp only [h, if_true]
      exact max_le hacc (hrules r (List.mem_cons_self r rs) h)
    · simpa [h] using hacc

/-! ### Monotonicity of Python substring counting under append -/

theorem py_count_aux_eq_zero_of_lt {t : List Char} :
    ∀ {f : ℕ} {l : List Char}, l.length < t.length → py_count_aux t f l = 0 := by
  intro f
  induction f with
  | zero => intro l _; rfl
  | succ f ih =>
    intro l h
    match l with
    | [] => rfl
    | c :: l' =>
      have hp : ¬ t.isPrefixOf (c :: l') = true := by
        intro hp
        have hle := (List.isPrefixOf_iff_prefix.mp hp).length_le
        simp only [List.length_cons] at hle h
        omega
      simp only [py_count_aux, hp, if_false]
      refine ih ?_
      simp only [List.length_cons] at h
      omega

theorem isPrefixOf_append_of_isPrefixOf {t l x : List Char}
    (h : t.isPrefixOf l = true) : t.isPrefixOf (l ++ x) = true :=
  List.isPrefixOf_iff_prefix.mpr
    ((List.isPrefixOf_iff_prefix.mp h).trans (List.prefix_append l x))

theorem py_count_aux_append_le {t : List Char} (ht : t ≠ []) :
    ∀ {f f' : ℕ} {l x : List Char}, l.length ≤ f → (l ++ x).length ≤ f' →
      py_count_aux t f l ≤ py_count_aux t f' (l ++ x) := by
  intro f
  induction f with
  | zero =>
    intro f' l x hl _
    have : l = [] := List.eq_nil_of_length_eq_zero (Nat.le_zero.mp hl)
    subst this
    simp [py_count_aux]
  | succ f ih =>
    intro f' l x hl hx
    match l with
    | [] => simp [py_count_aux]
    | c :: l' =>
      obtain ⟨f'', rfl⟩ : ∃ f'', f' = f'' + 1 := by
        refine ⟨f' - 1, ?_⟩
        simp [List.length_append] at hx
        omega
      have ht1 : 1 ≤ t.length := by
        cases t with
        | nil => exact absurd rfl ht
        | cons a t => simp
      by_cases hp : t.isPrefixOf (c :: l') = true
      · have hp' : t.isPrefixOf (c :: l' ++ x) = true :=
          isPrefixOf_append_of_isPrefixOf hp
        have hlen : t.length ≤ (c :: l').length :=
          (List.isPrefixOf_iff_prefix.mp hp).length_le
        simp only [List.cons_append] at hp' ⊢
        rw [py_count_aux, py_count_aux, if_pos hp, if_pos hp']
        have hdrop : List.drop t.length (c :: (l' ++ x)) =
            List.drop t.length (c :: l') ++ x := by
          have h3 := @List.drop_append_of_le_length Char (c :: l') x t.length hlen
          simpa using h3
        rw [hdrop]
        refine Nat.add_le_add_left (ih ?_ ?_) 1
        · rw [List.length_drop]
          simp only [List.length_cons] at hl ⊢
          omega
        · simp only [List.cons_append, List.length_cons, List.length_append,
            List.length_drop] at hx ⊢
          omega
      · by_cases hp' : t.isPrefixOf (c :: l' ++ x) = true
        · -- boundary match: `t` is longer than `c :: l'`, so the left count is 0
          have hlong : (c :: l').length < t.length := by
            by_contra hle
            push_neg at hle
            refine hp ?_
            have h1 := List.prefix_iff_eq_take.mp (List.isPrefixOf_iff_prefix.mp hp')
            have h2 : List.take t.length (c :: l' ++ x) = List.take t.length (c :: l') :=
              List.take_append_of_le_length hle
            rw [h2] at h1
            exact List.isPrefixOf_iff_prefix.mpr (List.prefix_iff_eq_take.mpr h1)
          have h0 : py_count_aux t (f + 1) (c :: l') = 0 :=
            py_count_aux_eq_zero_of_lt hlong
          rw [h0]
          exact Nat.zero_le _
        · simp only [List.cons_append] at hp' ⊢
          rw [py_count_aux, py_count_aux, if_neg hp, if_neg hp']
          refine ih ?_ ?_
          · simp only [List.length_cons] at hl
            omega
          · simp only [List.cons_append, List.length_cons, List.length_append] at hx
            simp only [List.length_append]
            omega

theorem py_count_le_append (t l x : List Char) :
    py_count t l ≤ py_count t (l ++ x) := by
  by_cases ht : t.isEmpty
  · simp [py_count, ht, List.length_append]
  · have ht' : t ≠ [] := by
      cases t with
      | nil => simp at ht
      | cons a t => simp
    simp only [py_count, ht, if_false]
    exact py_count_aux_append_le ht' le_rfl le_rfl

/-! ### Monotonicity of the individual heuristic triggers under append -/

theorem py_in_append {t l x : List Char} (h : py_in t l = true) :
    py_in t (l ++ x) = true := by
  simp only [py_in, decide_eq_true_eq] at h ⊢
  exact h.trans (List.prefix_append l x).isInfix

theorem lower_append (l x : List Char) : lower (l ++ x) = lower l ++ lower x :=
  List.map_append _ _ _

theorem tok_trigger_append {s : List Char} (x : List Char)
    (h : tok_trigger s = true) : tok_trigger (s ++ x) = true := by
  simp only [tok_trigger, decide_eq_true_eq] at h ⊢
  intro hnil
  refine h ?_
  rw [List.filter_eq_nil_iff] at hnil ⊢
  intro a ha
  have := hnil a ha
  intro hin
  refine this ?_
  rw [lower_append]
  exact py_in_append hin

theorem sum_counts_le {L : List (List Char)} {a b : List Char}
    (hab : ∀ t, py_in t a = true → py_in t b = true)
    (hcnt : ∀ t, py_count t a ≤ py_count t b) :
    ((L.filter (fun t => py_in t a)).map (fun t => py_count t a)).sum ≤
      ((L.filter (fun t => py_in t b)).map (fun t => py_count t b)).sum := by
  induction L with
  | nil => simp
  | cons t L ih =>
    by_cases h1 : py_in t a = true
    · have h2 := hab t h1
      simp only [List.filter_cons, h1, h2, if_true, List.map_cons, List.sum_cons]
      exact Nat.add_le_add (hcnt t) ih
    · simp only [List.filter_cons, h1, if_false]
      by_cases h2 : py_in t b = true
      · simp only [h2, if_true, List.map_cons, List.sum_cons]
        exact le_trans ih (Nat.le_add_left _ _)
      · simp only [h2, if_false]
        exact ih

theorem sum_tok_le_append (s x : List Char) : sum_tok s ≤ sum_tok (s ++ x) := by
  simp only [sum_tok, lower_append]
  refine sum_counts_le (fun t ht => py_in_append ht) (fun t => py_count_le_append _ _ _)

theorem tok_val_le_append (s x : List Char) : tok_val s ≤ tok_val (s ++ x) := by
  have hmn : ((sum_tok s : ℝ)) ≤ (sum_tok (s ++ x) : ℝ) :=
    Nat.cast_le.mpr (sum_tok_le_append s x)
  unfold tok_val
  have hlog : Real.log (1 + (sum_tok s : ℝ)) ≤ Real.log (1 + (sum_tok (s ++ x) : ℝ)) := by
    refine Real.log_le_log ?_ (by linarith)
    positivity
  refine min_le_min le_rfl ?_
  nlinarith

theorem non_ascii_count_append (l x : List Char) :
    non_ascii_count (l ++ x) = non_ascii_count l + non_ascii_count x :=
  List.countP_append _ _ _

theorem zw_count_append (l x : List Char) :
    zw_count (l ++ x) = zw_count l + zw_count x :=
  List.countP_append _ _ _

theorem obf_trigger_append {s : List Char} (x : List Char) {d : List Char}
    (h : obf_trigger s d = true) : obf_trigger (s ++ x) d = true := by
  simp only [obf_trigger, Bool.or_eq_true, decide_eq_true_eq,
    non_ascii_count_append, zw_count_append] at h ⊢
  rcases h with (h | h) | h
  · exact Or.inl (Or.inl (by omega))
  · exact Or.inl (Or.inr (by omega))
  · exact Or.inr h

theorem at_trigger_append {s : List Char} (x : List Char)
    (h : at_trigger s = true) : at_trigger (s ++ x) = true := by
  simp only [at_trigger, decide_eq_true_eq, List.mem_append] at h ⊢
  exact Or.inl h

theorem spec_trigger_append {s : List Char} (x : List Char)
    (h : spec_trigger s = true) : spec_trigger (s ++ x) = true := by
  simp only [spec_trigger, Bool.or_eq_true, decide_eq_true_eq,
    List.count_append] at h ⊢
  rcases h with h | h
  · exact Or.inl (by omega)
  · exact Or.inr (by omega)

theorem len_trigger_append {s : List Char} (x : List Char)
    (h : len_trigger s = true) : len_trigger (s ++ x) = true := by
  simp only [len_trigger, decide_eq_true_eq, List.length_append] at h ⊢
  omega

/-! ### The verdict classifier and combiner, characterised -/

theorem combine_score_eq (p h w : ℝ) (t : Bool) :
    combine_score p h w t = (if t then (0.3:ℝ) else 1) * (p * w + h * (1 - w)) := by
  cases t
  · simp [combine_score]
  · simp [combine_score]
    ring

theorem verdict_of_spec (s : ℝ) (thr : ℚ) :
    (verdict_of s thr = "phishing" ↔ (thr : ℝ) ≤ s) ∧
    (verdict_of s thr = "suspicious" ↔ ((thr : ℝ) * 0.6 ≤ s ∧ s < (thr : ℝ))) ∧
    (verdict_of s thr = "legitimate" ↔ (s < (thr : ℝ) ∧ s < (thr : ℝ) * 0.6)) := by
  have hps : ("phishing" : String) ≠ "suspicious" := by decide
  have hpl : ("phishing" : String) ≠ "legitimate" := by decide
  have hsp : ("suspicious" : String) ≠ "phishing" := by decide
  have hsl : ("suspicious" : String) ≠ "legitimate" := by decide
  have hlp : ("legitimate" : String) ≠ "phishing" := by decide
  have hls : ("legitimate" : String) ≠ "suspicious" := by decide
  by_cases h1 : (thr : ℝ) ≤ s
  · simp only [verdict_of, if_pos h1]
    refine ⟨⟨fun _ => h1, fun _ => trivial⟩,
      ⟨fun hc => absurd hc hps, fun hsc => absurd h1 (not_le.mpr hsc.2)⟩,
      ⟨fun hc => absurd hc hpl, fun hl => absurd h1 (not_le.mpr hl.1)⟩⟩
  · by_cases h2 : (thr : ℝ) * 0.6 ≤ s
    · simp only [verdict_of, if_neg h1, if_pos h2]
      refine ⟨⟨fun hc => absurd hc hsp, fun hs => absurd hs h1⟩,
        ⟨fun _ => ⟨h2, not_le.mp h1⟩, fun _ => trivial⟩,
        ⟨fun hc => absurd hc hsl, fun hl => absurd h2 (not_le.mpr hl.2)⟩⟩
    · simp only [verdict_of, if_neg h1, if_neg h2]
      refine ⟨⟨fun hc => absurd hc hlp, fun hs => absurd hs h1⟩,
        ⟨fun hc => absurd hc hls, fun hsc => absurd hsc.1 h2⟩,
        ⟨fun _ => ⟨not_le.mp h1, not_le.mp h2⟩, fun _ => trivial⟩⟩

/-! ### Claim theorems -/

/-- C4: Trust dampening relation — the combination step with the trusted
flag set produces exactly (hence at most) `0.3 ×` the score the same
`ml_probability`, `heuristic_score` and `ml_weight` would produce with the
flag clear, all else equal. -/
theorem trust_dampening (p h w : ℝ) :
    combine_score p h w true = 0.3 * combine_score p h w false ∧
    combine_score p h w true ≤ 0.3 * combine_score p h w false := by
  have he : combine_score p h w true = 0.3 * combine_score p h w false := by
    simp [combine_score]; ring
  exact ⟨he, le_of_eq he⟩

/-- C7: CSV training validation and atomicity — a missing source file or a
missing label column yields a `False` result with the live model unchanged;
the result is `ok true` exactly when the source exists and all required
columns are present; the live model is replaced if and only if the result
is `ok true` (a missing feature column raises `KeyError`, which also leaves
the model unchanged). -/
theorem train_from_csv_validation (ex : Bool) (cols : List String) (tc : String)
    (fitted cur : MLModel) :
    ((ex = false ∨ tc ∉ cols) →
      train_from_csv ex cols tc fitted cur = (Except.ok false, cur)) ∧
    ((train_from_csv ex cols tc fitted cur).1 = Except.ok true ↔
      (ex = true ∧ tc ∈ cols ∧ ∀ n ∈ FEATURE_NAMES, n ∈ cols)) ∧
    ((train_from_csv ex cols tc fitted cur).1 ≠ Except.ok true →
      (train_from_csv ex cols tc fitted cur).2 = cur) ∧
    ((train_from_csv ex cols tc fitted cur).1 = Except.ok true →
      (train_from_csv ex cols tc fitted cur).2 = fitted) := by
  cases hex : ex
  · simp [train_from_csv]
  · by_cases hc : tc ∈ cols
    · by_cases ha : ∀ n ∈ FEATURE_NAMES, n ∈ cols
      · have ha2 : ¬ ∃ x ∈ FEATURE_NAMES, x ∉ cols := by push_neg; exact ha
        simp [train_from_csv, hc, ha2]
        exact ha
      · have ha2 : ∃ x ∈ FEATURE_NAMES, x ∉ cols := by push_neg at ha; exact ha
        simp [train_from_csv, hc, ha, ha2]
    · simp [train_from_csv, hc]

/-- C7 witness: concrete instances — a missing file and a missing label
column both report `False` and leave the model untouched. -/
theorem train_from_csv_validation_case :
    train_from_csv false ["url"] "label" badM constM = (Except.ok false, constM) ∧
    train_from_csv true ["url"] "label" badM constM = (Except.ok false, constM) :=
  ⟨(train_from_csv_validation false ["url"] "label" badM constM).1 (Or.inl rfl),
   (train_from_csv_validation true ["url"] "label" badM constM).1
     (Or.inr (by decide))⟩

/-- C10: Implicit threshold coercion — a dict is accepted and its
`"threshold"` key used; an absent key or an unconvertible value silently
falls back to the engine default `0.55`; `detect` records exactly this
coerced threshold. -/
theorem threshold_coercion (es : List (String × PyVal)) (m : MLModel) (w : ℝ)
    (td : List (List Char)) (text : List Char) (thr : PyVal)
    (age : List Char → ℝ) (now : String) (r : ScoreResult) :
    (es.lookup "threshold" = none → threshold_use (.pdict es) = DEFAULT_THRESHOLD) ∧
    (∀ v, es.lookup "threshold" = some v → py_float v = none →
      threshold_use (.pdict es) = DEFAULT_THRESHOLD) ∧
    (∀ v q, es.lookup "threshold" = some v → py_float v = some q →
      threshold_use (.pdict es) = q) ∧
    threshold_use .pnone = DEFAULT_THRESHOLD ∧
    (detect m w td text thr age now = some r → r.threshold = threshold_use thr) := by
  refine ⟨?_, ?_, ?_, rfl, ?_⟩
  · intro hl; simp [threshold_use, hl, py_float, DEFAULT_THRESHOLD]
  · intro v hl hv; simp [threshold_use, hl, hv]
  · intro v q hl hv; simp [threshold_use, hl, hv]
  · intro hdet
    cases hp : predict_proba m (feats_for text age) with
    | none => simp [detect, hp] at hdet
    | some mp =>
      simp only [detect, hp, Option.some.injEq] at hdet
      subst hdet
      rfl

/-- C10 witness: a dict with a numeric value is used; a dict with an
unconvertible value and a dict without the key fall back to `0.55`. -/
theorem threshold_coercion_case :
    threshold_use (.pdict [("threshold", PyVal.pnum 0.8)]) = 0.8 ∧
    threshold_use (.pdict [("threshold", PyVal.pstr "abc".toList)]) = DEFAULT_THRESHOLD ∧
    threshold_use (.pdict []) = DEFAULT_THRESHOLD :=
  ⟨(threshold_coercion [("threshold", PyVal.pnum 0.8)] constM 0.6 TRUSTED_DOMAINS
      ['x'] PyVal.pnone (fun _ => 0) "t" rW).2.2.1 (PyVal.pnum 0.8) 0.8 rfl rfl,
   (threshold_coercion [("threshold", PyVal.pstr "abc".toList)] constM 0.6
      TRUSTED_DOMAINS ['x'] PyVal.pnone (fun _ => 0) "t" rW).2.1
      (PyVal.pstr "abc".toList) rfl rfl,
   (threshold_coercion [] constM 0.6 TRUSTED_DOMAINS ['x'] PyVal.pnone
      (fun _ => 0) "t" rW).1 rfl⟩

/-- C2 counterexample: with an ensemble whose aggregator `predict_proba`
raises, `detect` does not return a `ScoreResult` — the fault propagates to
the caller (there is no `try` around the aggregator call), contradicting the
claim that `detect` degrades to `probability 0.0, per_model = {}`. -/
theorem aggregator_fault_propagates :
    detect badM 0.6 TRUSTED_DOMAINS ['x'] PyVal.pnone (fun _ => 0) "t" = none := by
  simp [detect, predict_proba, badM]

/-- C2 amended: per-member fault isolation — `detect` returns a result
exactly when the aggregator's `predict_proba` succeeds on the extracted
features; when it does, a member whose own call raises contributes `0.0`
and is still listed in `per_model`, and the fault never reaches the
caller. -/
theorem model_fault_isolation (m : MLModel) (w : ℝ) (td : List (List Char))
    (text : List Char) (thr : PyVal) (age : List Char → ℝ) (now : String) :
    ((detect m w td text thr age now).isSome = true ↔
      (m.proba (feats_for text age)).isSome = true) ∧
    (∀ r, detect m w td text thr age now = some r →
      r.per_model = m.named_estimators.map
        (fun nf => (nf.1, ((nf.2) (feats_for text age)).getD 0))) := by
  cases hp : m.proba (feats_for text age) with
  | none =>
    have hpp : predict_proba m (feats_for text age) = none := by
      simp [predict_proba, hp]
    constructor
    · simp [detect, hpp, hp]
    · intro r hr
      simp [detect, hpp] at hr
  | some p =>
    have hpp : predict_proba m (feats_for text age) =
        some (p, m.named_estimators.map
          (fun nf => (nf.1, ((nf.2) (feats_for text age)).getD 0))) := by
      simp [predict_proba, hp]
    constructor
    · simp [detect, hpp, hp]
    · intro r hr
      simp only [detect, hpp, Option.some.injEq] at hr
      subst hr
      rfl

/-- C5 counterexample: feature extraction is not a function of the input
string alone — on `"http://example.com"` two different outcomes of the
external WHOIS/clock lookup give two different feature vectors (they differ
in the `domain_age_days` feature). -/
theorem extraction_depends_on_lookup :
    extract_features_from_url
      ['h','t','t','p',':','/','/','e','x','a','m','p','l','e','.','c','o','m']
      (fun _ => 0) ≠
    extract_features_from_url
      ['h','t','t','p',':','/','/','e','x','a','m','p','l','e','.','c','o','m']
      (fun _ => 1) := by
  have hh : (py_urlparse (py_strip
      ['h','t','t','p',':','/','/','e','x','a','m','p','l','e','.','c','o','m'])).hostname =
      ['e','x','a','m','p','l','e','.','c','o','m'] := by decide
  intro h
  simp only [extract_features_from_url, hh, get_domain_age_days,
    List.cons.injEq] at h
  simp at h

/-- C5 amended: every feature except the final `domain_age_days` is
independent of the external lookup, and for a fixed lookup outcome the
final score and verdict of `detect` do not depend on the call timestamp
(two calls with the same inputs and the same lookup outcome agree). -/
theorem detect_deterministic_given_lookup (url text : List Char)
    (a1 a2 : List Char → ℝ) (m : MLModel) (w : ℝ) (td : List (List Char))
    (thr : PyVal) (age : List Char → ℝ) (now1 now2 : String) :
    (extract_features_from_url url a1).dropLast =
      (extract_features_from_url url a2).dropLast ∧
    Option.map (fun r => (r.final_score, r.verdict))
        (detect m w td text thr age now1) =
      Option.map (fun r => (r.final_score, r.verdict))
        (detect m w td text thr age now2) := by
  constructor
  · rfl
  · cases hp : predict_proba m (feats_for text age) with
    | none => simp [detect, hp]
    | some mp => simp [detect, hp]

/-- C9: Extractor totality and fixed schema — for every input string and
lookup outcome, extraction returns (without any failure path) exactly as
many features as `FEATURE_NAMES` has names, namely 24, and whenever the
parsed hostname is missing every hostname-derived feature
(`hostname_length`, `has_ip_address`, `has_punycode`, `num_subdomains`,
`domain_entropy`, `tld_risk_score`, `domain_age_days`) is `0`. -/
theorem extractor_total_schema (url : List Char) (age : List Char → ℝ) :
    (extract_features_from_url url age).length = FEATURE_NAMES.length ∧
    FEATURE_NAMES.length = 24 ∧
    ((py_urlparse (py_strip url)).hostname = [] →
      ∃ f0 f2 f3 f4 f5 f6 f7 f8 f9 f10 f11 f13 f14 f15 f16 f17 f18 : ℝ,
        extract_features_from_url url age =
          [f0, 0, f2, f3, f4, f5, f6, f7, f8, f9, f10, f11, 0, f13, f14,
           f15, f16, f17, f18, 0, 0, 0, 0, 0]) := by
  refine ⟨rfl, rfl, ?_⟩
  intro h
  have hip0 : ip_match [] = false := by decide
  have hpuny0 : puny_in [] = false := by decide
  have hcnt0 : count_subdomains [] = 0 := rfl
  have hshan0 : shannon_entropy [] = 0 := by simp [shannon_entropy]
  have htld0 : get_tld_risk [] = 0 := by simp [get_tld_risk]
  have hage0 : get_domain_age_days [] age = 0 := by simp [get_domain_age_days]
  refine ⟨((py_strip url).length : ℝ),
    ((py_urlparse (py_strip url)).path.length : ℝ),
    ((py_urlparse (py_strip url)).query.length : ℝ),
    (((py_strip url).countP (fun c => c.isDigit)) : ℝ),
    (((py_strip url).count '-') : ℝ),
    (((py_strip url).count '@') : ℝ),
    (((py_strip url).count '?') : ℝ),
    (((py_strip url).count '=') : ℝ),
    (((py_strip url).count '%') : ℝ),
    (((py_strip url).count '_') : ℝ),
    (((py_strip url).count '.') : ℝ),
    ((SUSPICIOUS_TOKENS.filter (fun t => py_in t (lower (py_strip url)))).length : ℝ),
    (if "https://".toList.isPrefixOf (lower (py_strip url)) then (1:ℝ) else 0),
    (non_ascii_count (py_strip url) : ℝ),
    ((non_ascii_count (py_strip url) : ℝ)) / ((max (py_strip url).length 1 : ℕ) : ℝ),
    (zw_count (py_strip url) : ℝ),
    ((zw_count (py_strip url) : ℝ)) / ((max (py_strip url).length 1 : ℕ) : ℝ), ?_⟩
  simp only [extract_features_from_url, h, hip0, hpuny0, hcnt0, hshan0, htld0,
    hage0, List.length_nil, Nat.cast_zero, Rat.cast_zero, Bool.false_eq_true,
    if_false]

/-- C9 witness: the schema conclusion at the empty input, whose missing
hostname also discharges the zero-features hypothesis. -/
theorem extractor_total_schema_case :
    (extract_features_from_url [] (fun _ => 0)).length = FEATURE_NAMES.length ∧
    FEATURE_NAMES.length = 24 ∧
    ∃ f0 f2 f3 f4 f5 f6 f7 f8 f9 f10 f11 f13 f14 f15 f16 f17 f18 : ℝ,
      extract_features_from_url [] (fun _ => 0) =
        [f0, 0, f2, f3, f4, f5, f6, f7, f8, f9, f10, f11, 0, f13, f14,
         f15, f16, f17, f18, 0, 0, 0, 0, 0] :=
  ⟨(extractor_total_schema [] (fun _ => 0)).1,
   (extractor_total_schema [] (fun _ => 0)).2.1,
   (extractor_total_schema [] (fun _ => 0)).2.2 (by decide)⟩

/-! ### Concrete evaluation of `detect` on the witness input -/

theorem heuristic_score_x :
    heuristic_score ['x'] [] TRUSTED_DOMAINS = (0, [], false) := by
  have t1 : tok_trigger ['x'] = false := by decide
  have t2 : obf_trigger ['x'] [] = false := by decide
  have t3 : ip_match ([] : List Char) = false := by decide
  have t4 : depth_trigger [] = false := by decide
  have t5 : ent_trigger ['x'] = false := by
    have hd : (['x'] : List Char).dedup.length = 1 := by decide
    simp only [ent_trigger, hd, List.length_cons, List.length_nil,
      decide_eq_false_iff_not, not_lt, Nat.cast_one, Nat.cast_zero]
    norm_num
  have t6 : at_trigger ['x'] = false := by decide
  have t7 : spec_trigger ['x'] = false := by decide
  have t8 : len_trigger ['x'] = false := by decide
  have t9 : TRUSTED_DOMAINS.any
      (fun td => !td.isEmpty && td.isSuffixOf ([] : List Char)) = false := by decide
  have hmin : min (1:ℝ) 0 = 0 := min_eq_right (by norm_num)
  simp only [heuristic_score, rule_list, applyRules, t1, t2, t3, t4, t5, t6,
    t7, t8, t9, Bool.false_eq_true, if_false, hmin]

theorem detect_constM_eval :
    detect constM 0.6 TRUSTED_DOMAINS ['x'] PyVal.pnone (fun _ => 0) "t" = some rW := by
  have h1 : py_strip ['x'] = ['x'] := by decide
  have h2 : is_url_input ['x'] = false := by decide
  have h3 : (py_urlparse ([] : List Char)).hostname = [] := by decide
  have hpp : predict_proba constM (feats_for ['x'] (fun _ => 0)) =
      some (0.5, []) := rfl
  have hew : effective_weight 0.6 (List.length ['x']) 0 = 0.6 := by
    simp only [effective_weight, List.length_cons, List.length_nil]
    rw [if_neg]
    push_neg
    exact ⟨by norm_num, by norm_num⟩
  have hcs : combine_score 0.5 0 0.6 false = 0.3 := by
    simp only [combine_score, Bool.false_eq_true, if_false]
    norm_num
  have hvd : verdict_of 0.3 DEFAULT_THRESHOLD = "legitimate" := by
    simp only [verdict_of, DEFAULT_THRESHOLD]
    rw [if_neg (by push_cast; norm_num), if_neg (by push_cast; norm_num)]
  simp only [detect, hpp, h1, h2, h3, Bool.false_eq_true, if_false,
    heuristic_score_x, hew, hcs, hvd, rW]
  simp [threshold_use, py_float]
  exact hvd

/-- C3: Combiner postcondition — for every successful `detect` call the
final score is the weighted combination `ml*w + heur*(1-w)` with the
effective weight, times exactly `0.3` when the domain is trusted, and the
verdict is `"phishing"` iff `threshold ≤ final`, `"suspicious"` iff
`0.6*threshold ≤ final < threshold`, and `"legitimate"` otherwise. -/
theorem combiner_postcondition (m : MLModel) (w0 : ℝ) (td : List (List Char))
    (text : List Char) (thr : PyVal) (age : List Char → ℝ) (now : String)
    (r : ScoreResult) (h : detect m w0 td text thr age now = some r) :
    (r.final_score = (if r.trusted then (0.3:ℝ) else 1) *
      (r.ml_probability *
        effective_weight w0 (py_strip text).length r.heuristic_score +
       r.heuristic_score *
        (1 - effective_weight w0 (py_strip text).length r.heuristic_score))) ∧
    (r.verdict = "phishing" ↔ (r.threshold : ℝ) ≤ r.final_score) ∧
    (r.verdict = "suspicious" ↔
      ((r.threshold : ℝ) * 0.6 ≤ r.final_score ∧ r.final_score < (r.threshold : ℝ))) ∧
    (r.verdict = "legitimate" ↔
      (r.final_score < (r.threshold : ℝ) ∧ r.final_score < (r.threshold : ℝ) * 0.6)) := by
  cases hp : predict_proba m (feats_for text age) with
  | none => simp [detect, hp] at h
  | some mp =>
    simp only [detect, hp, Option.some.injEq] at h
    subst h
    refine ⟨?_, verdict_of_spec _ _⟩
    exact combine_score_eq _ _ _ _

/-- C3 witness: the combiner postcondition at the concrete successful call
`detect constM 0.6 TRUSTED_DOMAINS "x"`. -/
theorem combiner_postcondition_case :
    (rW.final_score = (if rW.trusted then (0.3:ℝ) else 1) *
      (rW.ml_probability *
        effective_weight 0.6 (py_strip ['x']).length rW.heuristic_score +
       rW.heuristic_score *
        (1 - effective_weight 0.6 (py_strip ['x']).length rW.heuristic_score))) ∧
    (rW.verdict = "phishing" ↔ (rW.threshold : ℝ) ≤ rW.final_score) ∧
    (rW.verdict = "suspicious" ↔
      ((rW.threshold : ℝ) * 0.6 ≤ rW.final_score ∧ rW.final_score < (rW.threshold : ℝ))) ∧
    (rW.verdict = "legitimate" ↔
      (rW.final_score < (rW.threshold : ℝ) ∧ rW.final_score < (rW.threshold : ℝ) * 0.6)) :=
  combiner_postcondition constM 0.6 TRUSTED_DOMAINS ['x'] PyVal.pnone
    (fun _ => 0) "t" rW detect_constM_eval

/-- C2 amended witness: on the concrete successful call, `per_model` lists
each named member with its (fallback-0) probability. -/
theorem model_fault_isolation_case :
    rW.per_model = constM.named_estimators.map
      (fun nf => (nf.1, ((nf.2) (feats_for ['x'] (fun _ => 0))).getD 0)) :=
  (model_fault_isolation constM 0.6 TRUSTED_DOMAINS ['x'] PyVal.pnone
    (fun _ => 0) "t").2 rW detect_constM_eval

/-! ### C8: the obfuscation rule has one shared floor -/

theorem ent_trigger_single (c : Char) : ent_trigger [c] = false := by
  have hd : ([c] : List Char).dedup.length = 1 := by
    simp [List.dedup_cons_of_not_mem]
  simp only [ent_trigger, hd, List.length_cons, List.length_nil,
    decide_eq_false_iff_not, not_lt, Nat.cast_one, Nat.cast_zero]
  norm_num

theorem heuristic_score_obf_only {text domain : List Char} {td : List (List Char)}
    (t1 : tok_trigger text = false) (t2 : obf_trigger text domain = true)
    (t3 : ip_match domain = false) (t4 : depth_trigger domain = false)
    (t5 : ent_trigger text = false) (t6 : at_trigger text = false)
    (t7 : spec_trigger text = false) (t8 : len_trigger text = false) :
    (heuristic_score text domain td).1 = 0.6 := by
  have hmax : max (0:ℝ) 0.6 = 0.6 := max_eq_right (by norm_num)
  have hmin : min (1:ℝ) 0.6 = 0.6 := min_eq_right (by norm_num)
  simp only [heuristic_score, rule_list, applyRules, t1, t2, t3, t4, t5, t6,
    t7, t8, Bool.false_eq_true, if_false, if_true, hmax, hmin]

/-- C8 counterexample: a zero-width-only input, a generic-non-ASCII-only
input, and a punycode-only domain all land on the same heuristic floor
`0.6` — the zero-width floor is not strictly higher than the non-ASCII
floor, and the punycode floor is not near-maximum. -/
theorem obfuscation_floors_equal :
    (heuristic_score ['​'] [] TRUSTED_DOMAINS).1 = 0.6 ∧
    (heuristic_score ['é'] [] TRUSTED_DOMAINS).1 = 0.6 ∧
    (heuristic_score ['a'] "xn--a.com".toList TRUSTED_DOMAINS).1 = 0.6 :=
  ⟨heuristic_score_obf_only (by decide) (by decide) (by decide) (by decide)
      (ent_trigger_single _) (by decide) (by decide) (by decide),
   heuristic_score_obf_only (by decide) (by decide) (by decide) (by decide)
      (ent_trigger_single _) (by decide) (by decide) (by decide),
   heuristic_score_obf_only (by decide) (by decide) (by decide) (by decide)
      (ent_trigger_single _) (by decide) (by decide) (by decide)⟩

/-- C8 amended: non-ASCII, zero-width and punycode share the single rule
floor — whenever any of the three signals is present the heuristic score is
at least `0.6`. -/
theorem obfuscation_single_floor (text domain : List Char) (td : List (List Char))
    (h : 0 < non_ascii_count text ∨ 0 < zw_count text ∨ puny_in domain = true) :
    (0.6:ℝ) ≤ (heuristic_score text domain td).1 := by
  have htrig : obf_trigger text domain = true := by
    simp only [obf_trigger, Bool.or_eq_true, decide_eq_true_eq]
    rcases h with h | h | h
    · exact Or.inl (Or.inl h)
    · exact Or.inl (Or.inr h)
    · exact Or.inr h
  have hB := @applyRules_fst_ge_of_mem (rule_list text domain)
    ⟨obf_trigger text domain, 0.6, Reason.unicodeObfuscation⟩
    (by simp [rule_list]) htrig
    ((0 : ℝ), if td.any (fun d => !d.isEmpty && d.isSuffixOf domain)
      then [Reason.trustedDomain] else [])
  simp only [heuristic_score]
  exact le_min (by norm_num) hB

/-- C8 witness: a generic non-ASCII character already reaches the shared
floor. -/
theorem obfuscation_single_floor_case :
    (0.6:ℝ) ≤ (heuristic_score ['é'] [] TRUSTED_DOMAINS).1 :=
  obfuscation_single_floor ['é'] [] TRUSTED_DOMAINS (Or.inl (by decide))

/-! ### C6: ceiling accumulation is not monotone across inputs -/

/-- C6 counterexample: `"abcdefghijkl"` triggers only the entropy rule
(12 distinct chars / 13 > 0.65) and scores `0.55`; appending the suspicious
token `"login"` twice pushes the entropy ratio to 14/23 < 0.65, switching
that rule off, while the token rule's floor is only
`0.2 + 0.1*log1p(2) < 0.41` — the heuristic score strictly decreases when a
suspicious signal is added. -/
theorem heuristic_not_monotone_under_token_append :
    (heuristic_score ("abcdefghijkl".toList ++ "loginlogin".toList) []
      TRUSTED_DOMAINS).1 <
    (heuristic_score "abcdefghijkl".toList [] TRUSTED_DOMAINS).1 := by
  have b1 : tok_trigger "abcdefghijkl".toList = false := by decide
  have b2 : obf_trigger "abcdefghijkl".toList [] = false := by decide
  have b3 : ip_match ([] : List Char) = false := by decide
  have b4 : depth_trigger [] = false := by decide
  have b5 : ent_trigger "abcdefghijkl".toList = true := by
    have hd : ("abcdefghijkl".toList).dedup.length = 12 := by decide
    have hl : ("abcdefghijkl".toList).length = 12 := by decide
    simp only [ent_trigger, hd, hl, decide_eq_true_eq]
    norm_num
  have b6 : at_trigger "abcdefghijkl".toList = false := by decide
  have b7 : spec_trigger "abcdefghijkl".toList = false := by decide
  have b8 : len_trigger "abcdefghijkl".toList = false := by decide
  have hbase : (heuristic_score "abcdefghijkl".toList [] TRUSTED_DOMAINS).1 = 0.55 := by
    have hmax : max (0:ℝ) 0.55 = 0.55 := max_eq_right (by norm_num)
    have hmin : min (1:ℝ) 0.55 = 0.55 := min_eq_right (by norm_num)
    simp only [heuristic_score, rule_list, applyRules, b1, b2, b3, b4, b5, b6,
      b7, b8, Bool.false_eq_true, if_false, if_true, hmax, hmin]
  have m1 : tok_trigger ("abcdefghijkl".toList ++ "loginlogin".toList) = true := by decide
  have msum : sum_tok ("abcdefghijkl".toList ++ "loginlogin".toList) = 2 := by decide
  have m2 : obf_trigger ("abcdefghijkl".toList ++ "loginlogin".toList) [] = false := by
    decide
  have m5 : ent_trigger ("abcdefghijkl".toList ++ "loginlogin".toList) = false := by
    have hd : ("abcdefghijkl".toList ++ "loginlogin".toList).dedup.length = 14 := by
      decide
    have hl : ("abcdefghijkl".toList ++ "loginlogin".toList).length = 22 := by decide
    simp only [ent_trigger, hd, hl, decide_eq_false_iff_not, not_lt]
    norm_num
  have m6 : at_trigger ("abcdefghijkl".toList ++ "loginlogin".toList) = false := by
    decide
  have m7 : spec_trigger ("abcdefghijkl".toList ++ "loginlogin".toList) = false := by
    decide
  have m8 : len_trigger ("abcdefghijkl".toList ++ "loginlogin".toList) = false := by
    decide
  have hlog0 : (0:ℝ) ≤ Real.log 3 := Real.log_nonneg (by norm_num)
  have hlog2 : Real.log 3 ≤ 2 := by
    have h := Real.log_le_sub_one_of_pos (x := 3) (by norm_num)
    linarith
  have htv : tok_val ("abcdefghijkl".toList ++ "loginlogin".toList) =
      0.2 + 0.1 * Real.log 3 := by
    simp only [tok_val, msum]
    rw [show ((1:ℝ) + ((2:ℕ):ℝ)) = 3 by norm_num]
    exact min_eq_right (by linarith)
  have hmod : (heuristic_score ("abcdefghijkl".toList ++ "loginlogin".toList) []
      TRUSTED_DOMAINS).1 = 0.2 + 0.1 * Real.log 3 := by
    have hmax : max (0:ℝ) (0.2 + 0.1 * Real.log 3) = 0.2 + 0.1 * Real.log 3 :=
      max_eq_right (by linarith)
    have hmin : min (1:ℝ) (0.2 + 0.1 * Real.log 3) = 0.2 + 0.1 * Real.log 3 :=
      min_eq_right (by linarith)
    simp only [heuristic_score, rule_list, applyRules, m1, htv, m2, b3, b4, m5,
      m6, m7, m8, Bool.false_eq_true, if_false, if_true, hmax, hmin]
  rw [hbase, hmod]
  linarith

/-- C6 amended: appending `'@'` or a zero-width character never decreases
the heuristic score — their floors (`0.75`, `0.6`) dominate the only rule
appending one character can switch off (entropy, floor `0.55`), and every
other trigger is monotone under appending; an extra suspicious token,
however, can decrease the score (see the counterexample). -/
theorem heuristic_append_signal_mono (text domain : List Char)
    (td : List (List Char)) (c : Char)
    (hc : c = '@' ∨ c ∈ ZERO_WIDTH_CHARS) :
    (heuristic_score text domain td).1 ≤
      (heuristic_score (text ++ [c]) domain td).1 := by
  simp only [heuristic_score]
  refine min_le_min le_rfl (applyRules_fst_le ?_ (applyRules_fst_ge_init _ _))
  intro r hr htrig
  simp only [rule_list, List.mem_cons, List.not_mem_nil, or_false] at hr
  rcases hr with rfl | rfl | rfl | rfl | rfl | rfl | rfl | rfl
  · -- suspicious-token rule: counts only grow, and the token floor is
    -- monotone in the count
    exact le_trans (tok_val_le_append text [c])
      (applyRules_fst_ge_of_mem
        (r := ⟨tok_trigger (text ++ [c]), tok_val (text ++ [c]),
          Reason.suspiciousTerms (sum_tok (text ++ [c]))⟩)
        (by simp [rule_list]) (tok_trigger_append [c] htrig) _)
  · -- obfuscation rule: character-class counts only grow
    exact applyRules_fst_ge_of_mem
      (r := ⟨obf_trigger (text ++ [c]) domain, 0.6, Reason.unicodeObfuscation⟩)
      (by simp [rule_list]) (obf_trigger_append [c] htrig) _
  · -- IP rule: depends only on the unchanged domain
    exact applyRules_fst_ge_of_mem
      (r := ⟨ip_match domain, 0.8, Reason.ipInDomain⟩)
      (by simp [rule_list]) htrig _
  · -- depth rule: depends only on the unchanged domain
    exact applyRules_fst_ge_of_mem
      (r := ⟨depth_trigger domain, 0.5, Reason.subdomainDepth (domain.count '.')⟩)
      (by simp [rule_list]) htrig _
  · -- entropy rule may switch off, but the appended character's own floor
    -- (0.75 for '@', 0.6 for zero-width) dominates 0.55
    rcases hc with rfl | hzw
    · have hat : at_trigger (text ++ ['@']) = true := by
        simp [at_trigger]
      have h75 := @applyRules_fst_ge_of_mem (rule_list (text ++ ['@']) domain)
        ⟨at_trigger (text ++ ['@']), 0.75, Reason.containsAt⟩
        (by simp [rule_list]) hat
        ((0 : ℝ), if td.any (fun d => !d.isEmpty && d.isSuffixOf domain)
          then [Reason.trustedDomain] else [])
      refine le_trans (by norm_num) h75
    · have hobf : obf_trigger (text ++ [c]) domain = true := by
        simp only [obf_trigger, Bool.or_eq_true, decide_eq_true_eq, zw_count_append]
        refine Or.inl (Or.inr ?_)
        have hone : 0 < zw_count [c] := by
          simp [zw_count, hzw]
        omega
      have h06 := @applyRules_fst_ge_of_mem (rule_list (text ++ [c]) domain)
        ⟨obf_trigger (text ++ [c]) domain, 0.6, Reason.unicodeObfuscation⟩
        (by simp [rule_list]) hobf
        ((0 : ℝ), if td.any (fun d => !d.isEmpty && d.isSuffixOf domain)
          then [Reason.trustedDomain] else [])
      refine le_trans (by norm_num) h06
  · -- '@' rule: membership is preserved by append
    exact applyRules_fst_ge_of_mem
      (r := ⟨at_trigger (text ++ [c]), 0.75, Reason.containsAt⟩)
      (by simp [rule_list]) (at_trigger_append [c] htrig) _
  · -- hyphen/underscore rule: counts only grow
    exact applyRules_fst_ge_of_mem
      (r := ⟨spec_trigger (text ++ [c]), 0.5, Reason.manySpecial⟩)
      (by simp [rule_list]) (spec_trigger_append [c] htrig) _
  · -- length rule: length only grows
    exact applyRules_fst_ge_of_mem
      (r := ⟨len_trigger (text ++ [c]), 0.55, Reason.longUrl⟩)
      (by simp [rule_list]) (len_trigger_append [c] htrig) _

/-- C6 amended witness: appending `'@'` to `"x"` does not decrease the
heuristic score. -/
theorem heuristic_append_signal_mono_case :
    (heuristic_score ['x'] [] TRUSTED_DOMAINS).1 ≤
      (heuristic_score (['x'] ++ ['@']) [] TRUSTED_DOMAINS).1 :=
  heuristic_append_signal_mono ['x'] [] TRUSTED_DOMAINS '@' (Or.inl rfl)
